import Mathlib

/-!
Shallow embedding of the time-window engine of the route_intel repository
(uiComponents.js) together with the filtering and sorting helpers of
app.js that consume it.

JavaScript number semantics for this code: every value flowing through the
engine is either a nonnegative integer (a minute count parsed from decimal
digit components) or NaN (from parsing a non-numeric component, or from
arithmetic on the undefined second component when a split produced a
single part).  We model such a value as `Option Nat`, with `none` playing
the role of NaN: every JS comparison involving NaN is false, and the
arithmetic of the sources propagates NaN.
-/

/-- JS String.prototype.split with a single-character separator:
the empty string splits to a list holding one empty component, and a
separator at either end produces an empty component there. -/
def splitChar (c : Char) : List Char → List (List Char)
  | [] => [[]]
  | x :: xs =>
    if x = c then
      [] :: splitChar c xs
    else
      match splitChar c xs with
      | [] => [[x]]
      | y :: ys => (x :: y) :: ys

/-- Decimal value of a list of digit characters. -/
def digitsToNat (l : List Char) : Nat :=
  l.foldl (fun acc c => acc * 10 + (c.toNat - 48)) 0

/-- JS Number on the subset of component strings this code feeds it: the
empty component coerces to 0, a run of decimal digits to its value, and
any other (non-numeric) component to NaN, modelled as `none`.  Signs,
interior whitespace, fractional and exponent forms do not occur in the
HH:MM data the repository handles. -/
def jsNumber (l : List Char) : Option Nat :=
  if l = [] then some 0
  else if l.all Char.isDigit then some (digitsToNat l)
  else none

/-- JS strict order comparison: false when either side is NaN. -/
def jsLt : Option Nat → Option Nat → Bool
  | some a, some b => decide (a < b)
  | _, _ => false

/-- JS at-most comparison: false when either side is NaN. -/
def jsLe : Option Nat → Option Nat → Bool
  | some a, some b => decide (a ≤ b)
  | _, _ => false

/-- JS at-least comparison: false when either side is NaN. -/
def jsGe : Option Nat → Option Nat → Bool
  | some a, some b => decide (a ≥ b)
  | _, _ => false

/-- uiComponents.js timeToMinutes: split on the colon, parse the first two
components with Number, and return hours * 60 + minutes.  A one-component
split leaves the minutes undefined, so the arithmetic yields NaN, and a
non-numeric component likewise propagates NaN; both collapse to `none`. -/
def timeToMinutes (time : String) : Option Nat :=
  match (splitChar ':' time.data).map jsNumber with
  | some hours :: some minutes :: _ => some (hours * 60 + minutes)
  | _ => none

/-- uiComponents.js isOvernightFlight: true when the arrival minute count
is strictly below the departure minute count.  The source inlines, for
each argument, the identical split-parse-combine computation that
timeToMinutes performs, so we name that shared computation here. -/
def isOvernightFlight (departureTime arrivalTime : String) : Bool :=
  let depTotalMinutes := timeToMinutes departureTime
  let arrTotalMinutes := timeToMinutes arrivalTime
  jsLt arrTotalMinutes depTotalMinutes

/-- uiComponents.js isValidTimeRange: permissive on an empty bound,
otherwise requires the end minute count to be at least the start minute
count.  The JS local named end is a Lean keyword, hence stop. -/
def isValidTimeRange (startTime endTime : String) : Bool :=
  if startTime = "" ∨ endTime = "" then
    true
  else
    let start := timeToMinutes startTime
    let stop := timeToMinutes endTime
    jsGe stop start

/-- uiComponents.js isTimeInRange: permissive when any argument is empty;
otherwise a closed-interval test, taken as a wrapping union of tail and
head when the start bound exceeds the end bound.  The allowNextDay
parameter of the source is never read in its body and is omitted. -/
def isTimeInRange (time startTime endTime : String) : Bool :=
  if time = "" ∨ startTime = "" ∨ endTime = "" then
    true
  else
    let timeMinutes := timeToMinutes time
    let startMinutes := timeToMinutes startTime
    let endMinutes := timeToMinutes endTime
    if jsLe startMinutes endMinutes then
      jsGe timeMinutes startMinutes && jsLe timeMinutes endMinutes
    else
      jsGe timeMinutes startMinutes || jsLe timeMinutes endMinutes

/-- uiComponents.js isArrivalTimeInRange: permissive when the arrival or
either filter bound is empty; otherwise classifies the flight as
overnight or same-day and delegates to isTimeInRange in both branches. -/
def isArrivalTimeInRange (departureTime arrivalTime filterStart filterEnd : String) : Bool :=
  if arrivalTime = "" ∨ filterStart = "" ∨ filterEnd = "" then
    true
  else
    let overnight := isOvernightFlight departureTime arrivalTime
    if overnight then
      isTimeInRange arrivalTime filterStart filterEnd
    else
      isTimeInRange arrivalTime filterStart filterEnd

/-- app.js timeToMinutes, the duplicate used for departure-time sorting:
returns 0 for an empty input (the guard of the source also catches
missing and non-string values, which a string embedding cannot receive)
and 0 when either parsed component is NaN. -/
def App.timeToMinutes (time : String) : Nat :=
  if time = "" then 0
  else
    match (splitChar ':' time.data).map jsNumber with
    | some hours :: some minutes :: _ => hours * 60 + minutes
    | _ => 0

/-- A flight or offer record as the filter pass of app.js reads it: only
the two clock-time fields take part in the time-range filters. -/
structure FlightRecord where
  departureTime : String
  arrivalTime : String

/-- The time-range portion of app.js applyFilters: the departure filter
runs when both departure bounds are nonempty, then the arrival filter
runs on its output when both arrival bounds are nonempty.  The carrier
checkbox filter and the rendering steps of applyFilters do not touch the
time predicates and stay outside this embedding. -/
def App.applyTimeFilters (depTimeStart depTimeEnd arrTimeStart arrTimeEnd : String)
    (results : List FlightRecord) : List FlightRecord :=
  let filtered := results
  let filtered :=
    if depTimeStart ≠ "" ∧ depTimeEnd ≠ "" then
      filtered.filter fun item => isTimeInRange item.departureTime depTimeStart depTimeEnd
    else filtered
  let filtered :=
    if arrTimeStart ≠ "" ∧ arrTimeEnd ≠ "" then
      filtered.filter fun item =>
        isArrivalTimeInRange item.departureTime item.arrivalTime arrTimeStart arrTimeEnd
    else filtered
  filtered

/-- A canonical well-formed HH:MM clock-time string: exactly two
components around one colon, each of two decimal digits, with hour value
at most 23 and minute value at most 59. -/
def validHHMM (t : String) : Bool :=
  match splitChar ':' t.data with
  | [h, m] =>
    decide (h.length = 2) && decide (m.length = 2)
      && h.all Char.isDigit && m.all Char.isDigit
      && decide (digitsToNat h ≤ 23) && decide (digitsToNat m ≤ 59)
  | _ => false


theorem splitChar_ne_nil (c : Char) (l : List Char) : splitChar c l ≠ [] := by
  induction l with
  | nil => simp [splitChar]
  | cons x xs ih =>
    simp only [splitChar]
    split
    · simp
    · split
      · simp
      · simp

theorem splitChar_singleton {c : Char} {l a : List Char}
    (h : splitChar c l = [a]) : l = a := by
  induction l generalizing a with
  | nil =>
    simp only [splitChar, List.cons.injEq, and_true] at h
    simp [← h]
  | cons x xs ih =>
    simp only [splitChar] at h
    split at h
    · injection h with h1 h2
      exact absurd h2 (splitChar_ne_nil c xs)
    · split at h
      · next hsp => exact absurd hsp (splitChar_ne_nil c xs)
      · next y ys hsp =>
        injection h with h1 h2
        subst h2
        rw [← h1, ih hsp]

theorem splitChar_pair {c : Char} {l a b : List Char}
    (h : splitChar c l = [a, b]) : l = a ++ c :: b := by
  induction l generalizing a with
  | nil => simp [splitChar] at h
  | cons x xs ih =>
    simp only [splitChar] at h
    split at h
    · next hx =>
      injection h with h1 h2
      subst hx
      rw [← h1, splitChar_singleton h2]
      rfl
    · split at h
      · simp at h
      · next y ys hsp =>
        injection h with h1 h2
        subst h2
        rw [← h1, ih hsp]
        rfl

theorem isDigit_toNat {c : Char} (h : c.isDigit = true) :
    48 ≤ c.toNat ∧ c.toNat ≤ 57 := by
  simp only [Char.isDigit, ge_iff_le, Bool.and_eq_true, decide_eq_true_eq] at h
  obtain ⟨h1, h2⟩ := h
  rw [UInt32.le_def, BitVec.le_def] at h1 h2
  exact ⟨h1, h2⟩

theorem char_eq_of_toNat_eq {a b : Char} (h : a.toNat = b.toNat) : a = b :=
  Char.ext (UInt32.ext h)

theorem digitsToNat_two (c1 c2 : Char) :
    digitsToNat [c1, c2] = (c1.toNat - 48) * 10 + (c2.toNat - 48) := by
  simp [digitsToNat, List.foldl]

theorem digits_two_inj {c1 c2 d1 d2 : Char}
    (hc1 : c1.isDigit = true) (hc2 : c2.isDigit = true)
    (hd1 : d1.isDigit = true) (hd2 : d2.isDigit = true)
    (h : digitsToNat [c1, c2] = digitsToNat [d1, d2]) :
    c1 = d1 ∧ c2 = d2 := by
  rw [digitsToNat_two, digitsToNat_two] at h
  obtain ⟨l1, u1⟩ := isDigit_toNat hc1
  obtain ⟨l2, u2⟩ := isDigit_toNat hc2
  obtain ⟨l3, u3⟩ := isDigit_toNat hd1
  obtain ⟨l4, u4⟩ := isDigit_toNat hd2
  exact ⟨char_eq_of_toNat_eq (by omega), char_eq_of_toNat_eq (by omega)⟩

theorem validHHMM_elim {t : String} (hv : validHHMM t = true) :
    ∃ h m, splitChar ':' t.data = [h, m] ∧ h.length = 2 ∧ m.length = 2 ∧
      h.all Char.isDigit = true ∧ m.all Char.isDigit = true ∧
      digitsToNat h ≤ 23 ∧ digitsToNat m ≤ 59 := by
  unfold validHHMM at hv
  split at hv
  · next h m heq =>
    simp only [Bool.and_eq_true, decide_eq_true_eq] at hv
    exact ⟨h, m, heq, hv.1.1.1.1.1, hv.1.1.1.1.2, hv.1.1.1.2, hv.1.1.2, hv.1.2, hv.2⟩
  · exact absurd hv (by simp)

theorem timeToMinutes_eq {t : String} {h m : List Char}
    (hs : splitChar ':' t.data = [h, m])
    (hh : h ≠ []) (hha : h.all Char.isDigit = true)
    (hm : m ≠ []) (hma : m.all Char.isDigit = true) :
    timeToMinutes t = some (digitsToNat h * 60 + digitsToNat m) := by
  unfold timeToMinutes
  rw [hs]
  simp [jsNumber, hh, hm, hha, hma]

theorem validHHMM_ne_empty {t : String} (hv : validHHMM t = true) : t ≠ "" := by
  intro h
  rw [h] at hv
  exact absurd hv (by decide)

theorem validHHMM_parse {t : String} (hv : validHHMM t = true) :
    ∃ c1 c2 c3 c4,
      t.data = [c1, c2, ':', c3, c4] ∧
      c1.isDigit = true ∧ c2.isDigit = true ∧ c3.isDigit = true ∧ c4.isDigit = true ∧
      timeToMinutes t = some (digitsToNat [c1, c2] * 60 + digitsToNat [c3, c4]) ∧
      digitsToNat [c1, c2] ≤ 23 ∧ digitsToNat [c3, c4] ≤ 59 := by
  obtain ⟨h, m, hs, hl2, ml2, hall, mall, hb, mb⟩ := validHHMM_elim hv
  obtain ⟨c1, c2, rfl⟩ := List.length_eq_two.mp hl2
  obtain ⟨c3, c4, rfl⟩ := List.length_eq_two.mp ml2
  have hdata := splitChar_pair hs
  simp only [List.all_cons, List.all_nil, Bool.and_eq_true, Bool.and_true] at hall mall
  refine ⟨c1, c2, c3, c4, by simpa using hdata, hall.1, hall.2, mall.1, mall.2, ?_, hb, mb⟩
  exact timeToMinutes_eq hs (by simp) (by simp [hall.1, hall.2]) (by simp) (by simp [mall.1, mall.2])

theorem timeToMinutes_range {t : String} (hv : validHHMM t = true) :
    ∃ n, timeToMinutes t = some n ∧ n ≤ 1439 := by
  obtain ⟨c1, c2, c3, c4, _, _, _, _, _, hval, hb, mb⟩ := validHHMM_parse hv
  exact ⟨_, hval, by omega⟩

theorem timeToMinutes_inj {t1 t2 : String}
    (h1 : validHHMM t1 = true) (h2 : validHHMM t2 = true)
    (he : timeToMinutes t1 = timeToMinutes t2) : t1 = t2 := by
  obtain ⟨a1, a2, a3, a4, hd1, d11, d12, d13, d14, hv1, hb1, mb1⟩ := validHHMM_parse h1
  obtain ⟨b1, b2, b3, b4, hd2, d21, d22, d23, d24, hv2, hb2, mb2⟩ := validHHMM_parse h2
  rw [hv1, hv2] at he
  have hnum : digitsToNat [a1, a2] * 60 + digitsToNat [a3, a4]
      = digitsToNat [b1, b2] * 60 + digitsToNat [b3, b4] := by
    simpa using he
  have hsplit : digitsToNat [a1, a2] = digitsToNat [b1, b2] ∧
      digitsToNat [a3, a4] = digitsToNat [b3, b4] := by omega
  obtain ⟨e1, e2⟩ := digits_two_inj d11 d12 d21 d22 hsplit.1
  obtain ⟨e3, e4⟩ := digits_two_inj d13 d14 d23 d24 hsplit.2
  have hdd : t1.data = t2.data := by rw [hd1, hd2, e1, e2, e3, e4]
  cases t1
  cases t2
  exact congrArg String.mk (by simpa using hdd)

theorem jsLe_none_left (b : Option Nat) : jsLe none b = false := by
  cases b <;> rfl

theorem jsGe_none_left (b : Option Nat) : jsGe none b = false := by
  cases b <;> rfl

theorem filter_idem {α : Type} (p : α → Bool) (l : List α) :
    (l.filter p).filter p = l.filter p := by
  rw [List.filter_filter]
  exact List.filter_congr (fun a _ => by cases p a <;> rfl)

theorem filters_pair_idem {α : Type} (p q : α → Bool) (l : List α) :
    (((l.filter p).filter q).filter p).filter q = (l.filter p).filter q := by
  simp only [List.filter_filter]
  exact List.filter_congr (fun a _ => by cases p a <;> cases q a <;> rfl)

theorem app_timeToMinutes_eq {t : String} (ht : t ≠ "") :
    App.timeToMinutes t = (timeToMinutes t).getD 0 := by
  unfold App.timeToMinutes timeToMinutes
  rw [if_neg ht]
  cases hxs : (splitChar ':' t.data).map jsNumber with
  | nil => rfl
  | cons a l =>
    cases a with
    | none => rfl
    | some x =>
      cases l with
      | nil => rfl
      | cons b l2 =>
        cases b with
        | none => rfl
        | some y => rfl

/-- C1: for every departure string and all nonempty arrival, filterStart and
filterEnd strings, isArrivalTimeInRange returns exactly what isTimeInRange
returns on the arrival and the two bounds, so the overnight classification
computed from the departure never changes the result; in particular the
flight departing 23:00 and arriving 01:00 matches the 00:00 to 02:00
arrival window. -/
theorem c1_arrival_filter_delegates :
    (∀ departureTime arrivalTime filterStart filterEnd : String,
        arrivalTime ≠ "" → filterStart ≠ "" → filterEnd ≠ "" →
        isArrivalTimeInRange departureTime arrivalTime filterStart filterEnd
          = isTimeInRange arrivalTime filterStart filterEnd) ∧
    isArrivalTimeInRange "23:00" "01:00" "00:00" "02:00" = true := by
  refine ⟨?_, by decide⟩
  intro d a fs fe ha hfs hfe
  unfold isArrivalTimeInRange
  rw [if_neg (by simp [ha, hfs, hfe])]
  simp only [ite_self]

theorem c1_witness :
    isArrivalTimeInRange "08:00" "10:30" "09:00" "11:00"
      = isTimeInRange "10:30" "09:00" "11:00" :=
  c1_arrival_filter_delegates.1 "08:00" "10:30" "09:00" "11:00"
    (by decide) (by decide) (by decide)

/-- C2: for all nonempty well-formed HH:MM strings t, s, e with
minute-of-day values tv, sv, ev: when sv is at most ev, isTimeInRange is
true exactly when tv lies between sv and ev inclusively; when sv exceeds
ev, it is true exactly when tv is at least sv or at most ev; and in both
branches the boundary cases tv equal to sv or to ev return true. -/
theorem c2_isTimeInRange_spec
    (t s e : String) (tv sv ev : Nat)
    (hts : validHHMM t = true) (hss : validHHMM s = true) (hes : validHHMM e = true)
    (ht : timeToMinutes t = some tv) (hs : timeToMinutes s = some sv)
    (he : timeToMinutes e = some ev) :
    (sv ≤ ev → (isTimeInRange t s e = true ↔ (sv ≤ tv ∧ tv ≤ ev))) ∧
    (sv > ev → (isTimeInRange t s e = true ↔ (tv ≥ sv ∨ tv ≤ ev))) ∧
    ((tv = sv ∨ tv = ev) → isTimeInRange t s e = true) := by
  have hne1 := validHHMM_ne_empty hts
  have hne2 := validHHMM_ne_empty hss
  have hne3 := validHHMM_ne_empty hes
  refine ⟨?_, ?_, ?_⟩
  · intro hle
    simp [isTimeInRange, hne1, hne2, hne3, ht, hs, he, jsLe, jsGe, hle]
  · intro hgt
    have hnle : ¬ (sv ≤ ev) := by omega
    simp [isTimeInRange, hne1, hne2, hne3, ht, hs, he, jsLe, jsGe, hnle]
  · intro hb
    rcases le_or_lt sv ev with hle | hlt
    · simp [isTimeInRange, hne1, hne2, hne3, ht, hs, he, jsLe, jsGe, hle]
      rcases hb with rfl | rfl
      · omega
      · omega
    · have hnle : ¬ (sv ≤ ev) := by omega
      simp [isTimeInRange, hne1, hne2, hne3, ht, hs, he, jsLe, jsGe, hnle]
      rcases hb with rfl | rfl
      · omega
      · omega

theorem c2_witness : isTimeInRange "09:30" "09:00" "11:00" = true :=
  ((c2_isTimeInRange_spec "09:30" "09:00" "11:00" 570 540 660
    (by decide) (by decide) (by decide) (by decide) (by decide) (by decide)).1
    (by decide)).mpr (by decide)

/-- C3: for all well-formed HH:MM departure and arrival strings,
isOvernightFlight is true exactly when the arrival minute-of-day is
strictly below the departure minute-of-day, and equal minute-of-day
values are classified same-day. -/
theorem c3_isOvernightFlight_spec
    (d a : String) (dv av : Nat)
    (_hdv : validHHMM d = true) (_hav : validHHMM a = true)
    (hd : timeToMinutes d = some dv) (ha : timeToMinutes a = some av) :
    (isOvernightFlight d a = true ↔ av < dv) ∧
    (av = dv → isOvernightFlight d a = false) := by
  constructor
  · simp [isOvernightFlight, hd, ha, jsLt]
  · intro hEq
    simp [isOvernightFlight, hd, ha, jsLt, hEq]

theorem c3_witness : isOvernightFlight "23:00" "01:00" = true :=
  (c3_isOvernightFlight_spec "23:00" "01:00" 1380 60
    (by decide) (by decide) (by decide) (by decide)).1.mpr (by decide)

/-- C4: a nonempty time string whose minute-of-day conversion is NaN
(non-numeric hour or minute component) matches no well-formed range:
isTimeInRange evaluates to false, and being a total function it cannot
raise. -/
theorem c4_malformed_time_no_match
    (t s e : String) (ht : t ≠ "") (hmal : timeToMinutes t = none)
    (hs : validHHMM s = true) (he : validHHMM e = true) :
    isTimeInRange t s e = false := by
  have hns := validHHMM_ne_empty hs
  have hne := validHHMM_ne_empty he
  obtain ⟨sv, hsv, _⟩ := timeToMinutes_range hs
  obtain ⟨ev, hev, _⟩ := timeToMinutes_range he
  simp [isTimeInRange, ht, hns, hne, hmal, hsv, hev, jsLe_none_left, jsGe_none_left, ite_self]

theorem c4_witness : isTimeInRange "ab:10" "09:00" "11:00" = false :=
  c4_malformed_time_no_match "ab:10" "09:00" "11:00"
    (by decide) (by decide) (by decide) (by decide)

/-- C5: an absent filter bound imposes no constraint: isTimeInRange is
true when any of its three arguments is empty, isArrivalTimeInRange is
true when the arrival or either filter bound is empty, and the two quoted
instances evaluate to true. -/
theorem c5_empty_bound_permissive :
    (∀ time startTime endTime : String,
        time = "" ∨ startTime = "" ∨ endTime = "" →
        isTimeInRange time startTime endTime = true) ∧
    (∀ departureTime arrivalTime filterStart filterEnd : String,
        arrivalTime = "" ∨ filterStart = "" ∨ filterEnd = "" →
        isArrivalTimeInRange departureTime arrivalTime filterStart filterEnd = true) ∧
    isTimeInRange "12:00" "" "" = true ∧
    isArrivalTimeInRange "10:00" "11:00" "" "" = true := by
  refine ⟨?_, ?_, by decide, by decide⟩
  · intro time s e h
    unfold isTimeInRange
    rw [if_pos h]
  · intro d a fs fe h
    unfold isArrivalTimeInRange
    rw [if_pos h]

theorem c5_witness : isTimeInRange "" "07:00" "08:00" = true :=
  c5_empty_bound_permissive.1 "" "07:00" "08:00" (Or.inl rfl)

/-- C6: on every valid HH:MM string the minute-of-day conversion lands in
the interval from 0 to 1439, and the conversion is injective over valid
inputs: distinct valid clock times map to distinct minute counts. -/
theorem c6_toMinuteOfDay_range_inj :
    (∀ t : String, validHHMM t = true →
        ∃ n, timeToMinutes t = some n ∧ 0 ≤ n ∧ n ≤ 1439) ∧
    (∀ t1 t2 : String, validHHMM t1 = true → validHHMM t2 = true →
        timeToMinutes t1 = timeToMinutes t2 → t1 = t2) := by
  constructor
  · intro t hv
    obtain ⟨n, hn, hb⟩ := timeToMinutes_range hv
    exact ⟨n, hn, Nat.zero_le n, hb⟩
  · intro t1 t2 h1 h2 he
    exact timeToMinutes_inj h1 h2 he

theorem c6_witness :
    timeToMinutes "09:30" = some 570 ∧ ("09:30" : String) = "09:30" :=
  ⟨by decide, c6_toMinuteOfDay_range_inj.2 "09:30" "09:30" (by decide) (by decide) rfl⟩

/-- C7: the minute-of-day conversion performs no bounds validation: when
the first two colon-separated components parse as numbers h and m it
returns h * 60 + m even outside the nominal day range, and in particular
the string 25:99 yields 1599. -/
theorem c7_no_bounds_validation :
    (∀ (t : String) (hs ms : List Char) (h m : Nat),
        splitChar ':' t.data = [hs, ms] →
        jsNumber hs = some h → jsNumber ms = some m →
        timeToMinutes t = some (h * 60 + m)) ∧
    timeToMinutes "25:99" = some 1599 := by
  refine ⟨?_, by decide⟩
  intro t hs ms h m hsplit hh hm
  unfold timeToMinutes
  rw [hsplit]
  simp [hh, hm]

theorem c7_witness : timeToMinutes "25:99" = some (25 * 60 + 99) :=
  c7_no_bounds_validation.1 "25:99" (['2', '5']) (['9', '9']) 25 99
    (by decide) (by decide) (by decide)

/-- C8: the time-range filter pass of applyFilters is idempotent: running
it twice with the same four bounds returns the same list as running it
once, for every list of flight records. -/
theorem c8_filter_idempotent
    (depTimeStart depTimeEnd arrTimeStart arrTimeEnd : String)
    (results : List FlightRecord) :
    App.applyTimeFilters depTimeStart depTimeEnd arrTimeStart arrTimeEnd
        (App.applyTimeFilters depTimeStart depTimeEnd arrTimeStart arrTimeEnd results)
      = App.applyTimeFilters depTimeStart depTimeEnd arrTimeStart arrTimeEnd results := by
  by_cases h1 : depTimeStart ≠ "" ∧ depTimeEnd ≠ ""
  · by_cases h2 : arrTimeStart ≠ "" ∧ arrTimeEnd ≠ ""
    · simp only [App.applyTimeFilters, if_pos h1, if_pos h2]
      exact filters_pair_idem _ _ _
    · simp only [App.applyTimeFilters, if_pos h1, if_neg h2]
      exact filter_idem _ _
  · by_cases h2 : arrTimeStart ≠ "" ∧ arrTimeEnd ≠ ""
    · simp only [App.applyTimeFilters, if_neg h1, if_pos h2]
      exact filter_idem _ _
    · simp only [App.applyTimeFilters, if_neg h1, if_neg h2]

/-- C9: isValidTimeRange is true whenever either bound is empty and
otherwise exactly when the end minute-of-day is at least the start
minute-of-day, so it rejects every wrapping range, while isTimeInRange
accepts wrapping bounds, witnessed by the 22:00 to 06:00 window. -/
theorem c9_isValidTimeRange_spec :
    (∀ startTime endTime : String, startTime = "" ∨ endTime = "" →
        isValidTimeRange startTime endTime = true) ∧
    (∀ (startTime endTime : String) (sv ev : Nat),
        startTime ≠ "" → endTime ≠ "" →
        timeToMinutes startTime = some sv → timeToMinutes endTime = some ev →
        (isValidTimeRange startTime endTime = true ↔ ev ≥ sv)) ∧
    isValidTimeRange "22:00" "06:00" = false ∧
    isTimeInRange "23:30" "22:00" "06:00" = true := by
  refine ⟨?_, ?_, by decide, by decide⟩
  · intro s e h
    unfold isValidTimeRange
    rw [if_pos h]
  · intro s e sv ev hs he hsv hev
    simp [isValidTimeRange, hs, he, hsv, hev, jsGe]

theorem c9_witness : isValidTimeRange "09:00" "11:00" = true :=
  ((c9_isValidTimeRange_spec.2.1 "09:00" "11:00" 540 660
    (by decide) (by decide) (by decide) (by decide)).mpr (by decide))

/-- C10: the app.js duplicate of timeToMinutes agrees with the engine
conversion on every well-formed HH:MM string, and returns 0 instead of a
NaN whenever the engine conversion is NaN, the empty input included. -/
theorem c10_app_timeToMinutes_agrees :
    (∀ t : String, validHHMM t = true →
        timeToMinutes t = some (App.timeToMinutes t)) ∧
    (∀ t : String, timeToMinutes t = none → App.timeToMinutes t = 0) ∧
    App.timeToMinutes "" = 0 := by
  refine ⟨?_, ?_, by decide⟩
  · intro t hv
    obtain ⟨n, hn, _⟩ := timeToMinutes_range hv
    rw [app_timeToMinutes_eq (validHHMM_ne_empty hv), hn]
    rfl
  · intro t hnone
    by_cases ht : t = ""
    · rw [ht]
      decide
    · rw [app_timeToMinutes_eq ht, hnone]
      rfl

theorem c10_witness : timeToMinutes "09:30" = some (App.timeToMinutes "09:30") :=
  c10_app_timeToMinutes_agrees.1 "09:30" (by decide)
